import Mathlib

/-
  Shallow embedding of the devvspaces/fantasy_league domain core
  (player attributes, fitness engine, development engine, team lineup
  validation and selection), together with theorems checking the
  specification's claims against the code.

  Modelling conventions:
  * Go float64 values are modelled as exact rationals (ℚ); the claims
    under scrutiny concern exact formulas, clamping and control flow,
    none of which hinge on binary rounding.
  * Go int is modelled as Int; the int(f) conversion of a float64 is
    truncation toward zero, modelled by truncQ.
  * Go's seeded math/rand stream owned by the development manager is
    modelled as an explicit list of pre-sampled draws in [0,1); each
    primitive draw (Float64, Intn) consumes one element, keeping the
    draw order of the source explicit.
  * Player.Age() derives the age from DateOfBirth and the wall clock;
    it is modelled as a stored integer field, since no operation here
    mutates the date of birth.
-/

namespace FantasyLeague

/-- Player positions (domain/player/player.go). -/
inductive Position where
  | GK
  | DEF
  | MID
  | FWD
deriving DecidableEq, Fintype

/-- Player availability status (domain/player/player.go). -/
inductive Status where
  | available
  | injured
  | suspended
  | onLoan
  | retired
deriving DecidableEq

/-- Player attributes on the 0-100 scale (domain/player/attributes.go). -/
structure Attributes where
  quality : Int
  keeping : Int
  tackling : Int
  passing : Int
  shooting : Int
  heading : Int
  speed : Int
  stamina : Int
  perception : Int
  ballControl : Int
  consistency : Int
  importantMatches : Int
  potential : Int
  ambition : Int
  professionalism : Int
deriving DecidableEq

/-- The Player fields read or written by the verified operations
(domain/player/player.go); identity, date fields and career statistics
that no claim touches are projected away, except the name fields used
by error messages. -/
structure Player where
  id : String
  firstName : String
  lastName : String
  nickname : String
  age : Int
  position : Position
  status : Status
  fitness : ℚ
  morale : ℚ
  form : ℚ
  attributes : Attributes
deriving DecidableEq

/-- Truncation of a rational toward zero: the behaviour of Go's
int(float64) conversion. -/
def truncQ (q : ℚ) : Int := if 0 ≤ q then ⌊q⌋ else ⌈q⌉

/-- GK overall rating (attributes.go GetGoalkeeperRating). -/
def Attributes.GetGoalkeeperRating (a : Attributes) : Int :=
  truncQ ((a.keeping : ℚ) * 0.5 + (a.speed : ℚ) * 0.1 + (a.perception : ℚ) * 0.2 +
    (a.stamina : ℚ) * 0.1 + (a.passing : ℚ) * 0.1)

/-- DEF overall rating (attributes.go GetDefenderRating). -/
def Attributes.GetDefenderRating (a : Attributes) : Int :=
  truncQ ((a.tackling : ℚ) * 0.3 + (a.heading : ℚ) * 0.2 + (a.speed : ℚ) * 0.15 +
    (a.stamina : ℚ) * 0.15 + (a.passing : ℚ) * 0.1 + (a.perception : ℚ) * 0.1)

/-- MID overall rating (attributes.go GetMidfielderRating). -/
def Attributes.GetMidfielderRating (a : Attributes) : Int :=
  truncQ ((a.passing : ℚ) * 0.25 + (a.ballControl : ℚ) * 0.2 + (a.perception : ℚ) * 0.15 +
    (a.stamina : ℚ) * 0.15 + (a.tackling : ℚ) * 0.15 + (a.shooting : ℚ) * 0.1)

/-- FWD overall rating (attributes.go GetForwardRating). -/
def Attributes.GetForwardRating (a : Attributes) : Int :=
  truncQ ((a.shooting : ℚ) * 0.3 + (a.ballControl : ℚ) * 0.2 + (a.speed : ℚ) * 0.2 +
    (a.heading : ℚ) * 0.15 + (a.perception : ℚ) * 0.15)

/-- Overall rating dispatch by position (player.go GetOverallRating).
The Go default branch returns Attributes.Quality; it is unreachable
here because Position is a closed enumeration of the four cases. -/
def Player.GetOverallRating (p : Player) : Int :=
  match p.position with
  | Position.GK => p.attributes.GetGoalkeeperRating
  | Position.DEF => p.attributes.GetDefenderRating
  | Position.MID => p.attributes.GetMidfielderRating
  | Position.FWD => p.attributes.GetForwardRating

/-- FullName (player.go): the nickname when set, else first plus last. -/
def Player.FullName (p : Player) : String :=
  if p.nickname ≠ "" then p.nickname else p.firstName ++ " " ++ p.lastName

/-- IsAvailable (player.go): status is available and fitness at least 70. -/
def Player.IsAvailable (p : Player) : Bool :=
  decide (p.status = Status.available) && decide (70 ≤ p.fitness)

/-- CanPlayPosition (player.go): exact match, else the flexibility rules;
the Go default branch (hit by GK) returns false. -/
def Player.CanPlayPosition (p : Player) (pos : Position) : Bool :=
  if p.position = pos then true
  else
    match p.position with
    | Position.DEF =>
        decide (pos = Position.DEF) ||
          (decide (pos = Position.MID) && decide (60 < p.attributes.passing))
    | Position.MID =>
        decide (pos = Position.MID) || decide (pos = Position.DEF) ||
          decide (pos = Position.FWD)
    | Position.FWD =>
        decide (pos = Position.FWD) ||
          (decide (pos = Position.MID) && decide (60 < p.attributes.passing))
    | Position.GK => false

/-- FitnessManager constant rates (domain/player/fitness.go). -/
structure FitnessManager where
  fatigueRate : ℚ
  recoveryRate : ℚ
  injuryThreshold : ℚ
deriving DecidableEq

/-- NewFitnessManager (fitness.go). -/
def NewFitnessManager : FitnessManager :=
  { fatigueRate := 0.15, recoveryRate := 10.0, injuryThreshold := 40.0 }

/-- CalculateMatchFatigue (fitness.go): base fatigue scaled by intensity,
stamina, an age penalty above 30 and a position factor, capped at 60. -/
def CalculateMatchFatigue (fm : FitnessManager) (p : Player) (minutesPlayed : Int)
    (matchIntensity : ℚ) : ℚ :=
  if minutesPlayed = 0 then 0
  else
    let fatigue := (minutesPlayed : ℚ) * fm.fatigueRate
    let fatigue := fatigue * matchIntensity
    let staminaMod := 1.5 - (p.attributes.stamina : ℚ) / 100
    let fatigue := fatigue * staminaMod
    let fatigue := if 30 < p.age then fatigue * (1.0 + ((p.age : ℚ) - 30) * 0.05) else fatigue
    let fatigue :=
      match p.position with
      | Position.GK => fatigue * 0.6
      | Position.DEF => fatigue * 0.85
      | Position.MID => fatigue * 1.15
      | Position.FWD => fatigue * 1.0
    min fatigue 60

/-- CalculateDailyRecovery (fitness.go): base recovery with stamina bonus,
age factor, training-intensity factor and professionalism factor. -/
def CalculateDailyRecovery (fm : FitnessManager) (p : Player)
    (trainingIntensity : ℚ) : ℚ :=
  let recovery := fm.recoveryRate
  let recovery := recovery + (p.attributes.stamina : ℚ) / 20
  let recovery :=
    if p.age < 23 then recovery * 1.2
    else if 30 < p.age then recovery * (0.9 - ((p.age : ℚ) - 30) * 0.02)
    else recovery
  let recovery := recovery * (2 - trainingIntensity)
  recovery * (1 + (p.attributes.professionalism : ℚ) / 200)

/-- ApplyMatchFitness (fitness.go): subtract the fatigue, floored at 0. -/
def ApplyMatchFitness (fm : FitnessManager) (p : Player) (minutesPlayed : Int)
    (intensity : ℚ) : Player :=
  { p with fitness := max 0 (p.fitness - CalculateMatchFatigue fm p minutesPlayed intensity) }

/-- ApplyDailyRecovery (fitness.go): add the recovery, capped at 100. -/
def ApplyDailyRecovery (fm : FitnessManager) (p : Player)
    (trainingIntensity : ℚ) : Player :=
  { p with fitness := min 100 (p.fitness + CalculateDailyRecovery fm p trainingIntensity) }

/-- Model of the seeded math/rand stream owned by the development
manager: a list of pre-sampled uniform draws in the interval from 0
inclusive to 1 exclusive, consumed one element per primitive draw.
An exhausted stream yields 0 (never reached with streams long enough
for the call being evaluated). -/
structure Rng where
  stream : List ℚ
deriving DecidableEq

/-- Rand.Float64: pop the next pre-sampled draw. -/
def Rng.float64 (r : Rng) : ℚ × Rng :=
  match r.stream with
  | [] => (0, ⟨[]⟩)
  | q :: rest => (q, ⟨rest⟩)

/-- Rand.Intn n: pop the next draw q and return the uniform pick
corresponding to it, the truncation of q times n, kept below n. -/
def Rng.intn (r : Rng) (n : Nat) : Nat × Rng :=
  let d := r.float64
  (min (truncQ (d.1 * n)).toNat (n - 1), d.2)

/-- DevelopmentManager (domain/player/development.go): owns the seeded
random stream. -/
structure DevelopmentManager where
  rng : Rng
deriving DecidableEq

/-- NewDevelopmentManager (development.go) constructs the manager with
rand.New(rand.NewSource(42)). Every freshly constructed manager owns
the same fixed draw sequence; the model takes that sequence as an
explicit argument because the concrete numeric draws of the Go
generator are implementation data, not part of the repository. -/
def NewDevelopmentManager (seedDraws : List ℚ) : DevelopmentManager :=
  { rng := { stream := seedDraws } }

/-- Training focuses (development.go). -/
inductive TrainingType where
  | general
  | technical
  | physical
  | tactical
  | setPieces
deriving DecidableEq

/-- TrainingResult (development.go). AttributeChanges is a Go map from
attribute name to gain; it is modelled as an association list with
overwrite-on-repeated-key semantics (see setChange). -/
structure TrainingResult where
  attributeChanges : List (String × Int)
  fitnessChange : ℚ
  moraleChange : ℚ
deriving DecidableEq

/-- Assignment result.AttributeChanges[attr] = v: overwrite the entry
when the key is present, append it otherwise. -/
def setChange (res : TrainingResult) (attr : String) (v : Int) : TrainingResult :=
  { res with attributeChanges :=
      if res.attributeChanges.any (fun kv => kv.1 = attr) then
        res.attributeChanges.map (fun kv => if kv.1 = attr then (attr, v) else kv)
      else
        res.attributeChanges ++ [(attr, v)] }

/-- calculateImprovementChance (development.go): age-bracket base chance
scaled by potential, professionalism and morale. -/
def calculateImprovementChance (p : Player) : ℚ :=
  let baseChance : ℚ :=
    if p.age < 21 then 0.8
    else if p.age < 25 then 0.6
    else if p.age < 28 then 0.4
    else if p.age < 32 then 0.2
    else 0.05
  let b1 := baseChance * ((p.attributes.potential : ℚ) / 100)
  let b2 := b1 * (0.5 + 0.5 * ((p.attributes.professionalism : ℚ) / 100))
  b2 * (0.8 + 0.2 * (p.morale / 100))

/-- getAttributeValue (development.go): attribute lookup by name with a
default of 50 for unknown names. -/
def getAttributeValue (p : Player) (attrName : String) : Int :=
  if attrName = "Keeping" then p.attributes.keeping
  else if attrName = "Tackling" then p.attributes.tackling
  else if attrName = "Passing" then p.attributes.passing
  else if attrName = "Shooting" then p.attributes.shooting
  else if attrName = "Heading" then p.attributes.heading
  else if attrName = "Speed" then p.attributes.speed
  else if attrName = "Stamina" then p.attributes.stamina
  else if attrName = "Perception" then p.attributes.perception
  else if attrName = "BallControl" then p.attributes.ballControl
  else 50

/-- The clamp int(math.Min(math.Max(float64(x), 0), 100)) used by
applyAttributeChange; on integers the float round trip is exact. -/
def clamp100 (x : Int) : Int := min (max x 0) 100

/-- applyAttributeChange (development.go): add the change to the named
attribute, clamped into 0..100; unknown names change nothing. -/
def applyAttributeChange (p : Player) (attrName : String) (change : Int) : Player :=
  if attrName = "Keeping" then
    { p with attributes.keeping := clamp100 (p.attributes.keeping + change) }
  else if attrName = "Tackling" then
    { p with attributes.tackling := clamp100 (p.attributes.tackling + change) }
  else if attrName = "Passing" then
    { p with attributes.passing := clamp100 (p.attributes.passing + change) }
  else if attrName = "Shooting" then
    { p with attributes.shooting := clamp100 (p.attributes.shooting + change) }
  else if attrName = "Heading" then
    { p with attributes.heading := clamp100 (p.attributes.heading + change) }
  else if attrName = "Speed" then
    { p with attributes.speed := clamp100 (p.attributes.speed + change) }
  else if attrName = "Stamina" then
    { p with attributes.stamina := clamp100 (p.attributes.stamina + change) }
  else if attrName = "Perception" then
    { p with attributes.perception := clamp100 (p.attributes.perception + change) }
  else if attrName = "BallControl" then
    { p with attributes.ballControl := clamp100 (p.attributes.ballControl + change) }
  else p

/-- calculateImprovement (development.go): attributes at 95 or more
never improve; at 90 or more a 10 percent coin gives plus 1; at 80 or
more a 30 percent coin gives plus 1 (either failed coin falls through
to 0); below 80 the improvement is 1 plus Intn(2). -/
def calculateImprovement (p : Player) (attrName : String) (r : Rng) : Int × Rng :=
  let current := getAttributeValue p attrName
  if 95 ≤ current then (0, r)
  else if 90 ≤ current then
    let d := r.float64
    if d.1 < 0.1 then (1, d.2) else (0, d.2)
  else if 80 ≤ current then
    let d := r.float64
    if d.1 < 0.3 then (1, d.2) else (0, d.2)
  else
    let d := r.intn 2
    (1 + (d.1 : Int), d.2)

/-- The per-attribute training loop shared verbatim by trainTechnical,
trainPhysical, trainTactical and the non-GK branch of trainSetPieces
(development.go): for each attribute in order, draw a coin against the
given chance; on success compute the improvement and, when positive,
record and apply it. -/
def trainAttrsLoop : List String → ℚ → Player → TrainingResult → Rng →
    Player × TrainingResult × Rng
  | [], _, p, res, r => (p, res, r)
  | attr :: rest, chance, p, res, r =>
    let d := r.float64
    if d.1 < chance then
      let imp := calculateImprovement p attr d.2
      if 0 < imp.1 then
        trainAttrsLoop rest chance (applyAttributeChange p attr imp.1)
          (setChange res attr imp.1) imp.2
      else
        trainAttrsLoop rest chance p res imp.2
    else
      trainAttrsLoop rest chance p res d.2

/-- trainTechnical (development.go): Passing, BallControl, Shooting at
the base chance. -/
def trainTechnical (p : Player) (chance : ℚ) (res : TrainingResult) (r : Rng) :
    Player × TrainingResult × Rng :=
  trainAttrsLoop ["Passing", "BallControl", "Shooting"] chance p res r

/-- trainPhysical (development.go): Speed, Stamina, Heading at 0.8 of
the base chance. -/
def trainPhysical (p : Player) (chance : ℚ) (res : TrainingResult) (r : Rng) :
    Player × TrainingResult × Rng :=
  trainAttrsLoop ["Speed", "Stamina", "Heading"] (chance * 0.8) p res r

/-- trainTactical (development.go): Perception, Tackling at the base
chance. -/
def trainTactical (p : Player) (chance : ℚ) (res : TrainingResult) (r : Rng) :
    Player × TrainingResult × Rng :=
  trainAttrsLoop ["Perception", "Tackling"] chance p res r

/-- trainSetPieces (development.go): a goalkeeper improves Keeping
only, and the gain is added WITHOUT the clamp of applyAttributeChange;
everyone else improves Heading and Shooting at 0.7 of the base chance. -/
def trainSetPieces (p : Player) (chance : ℚ) (res : TrainingResult) (r : Rng) :
    Player × TrainingResult × Rng :=
  if p.position = Position.GK then
    let d := r.float64
    if d.1 < chance then
      let imp := calculateImprovement p "Keeping" d.2
      if 0 < imp.1 then
        ({ p with attributes.keeping := p.attributes.keeping + imp.1 },
          setChange res "Keeping" imp.1, imp.2)
      else (p, res, imp.2)
    else (p, res, d.2)
  else
    trainAttrsLoop ["Heading", "Shooting"] (chance * 0.7) p res r

/-- The nine-attribute pool of trainGeneral (development.go). -/
def allTrainAttrs : List String :=
  ["Keeping", "Tackling", "Passing", "Shooting", "Heading",
   "Speed", "Stamina", "Perception", "BallControl"]

/-- The body of trainGeneral's for loop (development.go), run numAttrs
times: pick an attribute uniformly (with replacement) from the pool and
test it at half the base chance. The Intn(9) pick is always below 9, so
the getD default is never reached. -/
def trainGeneralLoop : Nat → ℚ → Player → TrainingResult → Rng →
    Player × TrainingResult × Rng
  | 0, _, p, res, r => (p, res, r)
  | Nat.succ n, chance, p, res, r =>
    let k := r.intn allTrainAttrs.length
    let attr := allTrainAttrs.getD k.1 "Keeping"
    let d := k.2.float64
    if d.1 < chance * 0.5 then
      let imp := calculateImprovement p attr d.2
      if 0 < imp.1 then
        trainGeneralLoop n chance (applyAttributeChange p attr imp.1)
          (setChange res attr imp.1) imp.2
      else
        trainGeneralLoop n chance p res imp.2
    else
      trainGeneralLoop n chance p res d.2

/-- trainGeneral (development.go): 2 plus Intn(2) rounds of the loop. -/
def trainGeneral (p : Player) (chance : ℚ) (res : TrainingResult) (r : Rng) :
    Player × TrainingResult × Rng :=
  let n := r.intn 2
  trainGeneralLoop (2 + n.1) chance p res n.2

/-- ProcessTraining (development.go): dispatch on the training type
(the Go switch has no case for "general", so TrainingGeneral reaches
the default branch, which runs trainGeneral), then record the fitness
and morale deltas in the returned result. The deltas are stored in the
TrainingResult only; the player's Fitness and Morale fields are not
written by this function. -/
def ProcessTraining (dm : DevelopmentManager) (p : Player) (trainingType : TrainingType)
    (intensity : ℚ) : TrainingResult × Player × DevelopmentManager :=
  let res0 : TrainingResult := { attributeChanges := [], fitnessChange := 0, moraleChange := 0 }
  let improvementChance := calculateImprovementChance p
  let step :=
    match trainingType with
    | TrainingType.technical => trainTechnical p improvementChance res0 dm.rng
    | TrainingType.physical => trainPhysical p improvementChance res0 dm.rng
    | TrainingType.tactical => trainTactical p improvementChance res0 dm.rng
    | TrainingType.setPieces => trainSetPieces p improvementChance res0 dm.rng
    | TrainingType.general => trainGeneral p improvementChance res0 dm.rng
  let res1 := { step.2.1 with fitnessChange := -5 * intensity }
  let res2 :=
    if intensity < 0.7 then { res1 with moraleChange := 2 }
    else if 0.9 < intensity then { res1 with moraleChange := -3 }
    else res1
  (res2, step.1, { rng := step.2.2 })

/-- youngPlayerDevelopment (development.go): below age 21 a 30 percent
coin adds 1 to Speed and Stamina (each capped at 100 by math.Min); then
a Potential/200 coin picks one of Passing, BallControl, Perception,
Tackling uniformly and applies plus 1 through applyAttributeChange. -/
def youngPlayerDevelopment (p : Player) (r : Rng) : Player × Rng :=
  let s1 : Player × Rng :=
    if p.age < 21 then
      let d := r.float64
      if d.1 < 0.3 then
        ({ p with
            attributes.speed := min (p.attributes.speed + 1) 100,
            attributes.stamina := min (p.attributes.stamina + 1) 100 }, d.2)
      else (p, d.2)
    else (p, r)
  let d2 := s1.2.float64
  if d2.1 < (s1.1.attributes.potential : ℚ) / 200 then
    let k := d2.2.intn 4
    let attr := (["Passing", "BallControl", "Perception", "Tackling"]).getD k.1 "Passing"
    (applyAttributeChange s1.1 attr 1, k.2)
  else (s1.1, d2.2)

/-- veteranDecline (development.go): decline coins for Speed and
Stamina (floored at 30 by math.Max) and a flat 20 percent experience
coin for Perception (capped at 100). -/
def veteranDecline (p : Player) (r : Rng) : Player × Rng :=
  let declineRate := ((p.age : ℚ) - 30) * 0.05
  let d1 := r.float64
  let p1 := if d1.1 < declineRate then
      { p with attributes.speed := max (p.attributes.speed - 1) 30 } else p
  let d2 := d1.2.float64
  let p2 := if d2.1 < declineRate * 0.8 then
      { p1 with attributes.stamina := max (p1.attributes.stamina - 1) 30 } else p1
  let d3 := d2.2.float64
  let p3 := if d3.1 < 0.2 then
      { p2 with attributes.perception := min (p2.attributes.perception + 1) 100 } else p2
  (p3, d3.2)

/-- ProcessNaturalDevelopment (development.go): young growth below 23,
veteran decline above 30, then Quality is recomputed from the position
rating and stored. -/
def ProcessNaturalDevelopment (dm : DevelopmentManager) (p : Player) :
    Player × DevelopmentManager :=
  let s :=
    if p.age < 23 then youngPlayerDevelopment p dm.rng
    else if 30 < p.age then veteranDecline p dm.rng
    else (p, dm.rng)
  ({ s.1 with attributes.quality := s.1.GetOverallRating }, { rng := s.2 })

/-- Formations (domain/team/formation.go). Go's Formation is an open
string type; the seven named constants are the inductive cases and any
other string is the final case. -/
inductive Formation where
  | f442
  | f433
  | f451
  | f352
  | f532
  | f4231
  | f4312
  | other (s : String)
deriving DecidableEq

/-- Formation.IsValid (formation.go): membership in the seven named
constants. -/
def Formation.IsValid (f : Formation) : Bool :=
  match f with
  | Formation.other _ => false
  | _ => true

/-- Formation.GetPositionRequirements (formation.go). Each switch case
returns a map holding all four positions; the default case (any other
string) returns the 4-4-2 map. -/
def Formation.GetPositionRequirements (f : Formation) : Position → Nat :=
  match f with
  | Formation.f442 => fun pos =>
      match pos with
      | Position.GK => 1 | Position.DEF => 4 | Position.MID => 4 | Position.FWD => 2
  | Formation.f433 => fun pos =>
      match pos with
      | Position.GK => 1 | Position.DEF => 4 | Position.MID => 3 | Position.FWD => 3
  | Formation.f451 => fun pos =>
      match pos with
      | Position.GK => 1 | Position.DEF => 4 | Position.MID => 5 | Position.FWD => 1
  | Formation.f352 => fun pos =>
      match pos with
      | Position.GK => 1 | Position.DEF => 3 | Position.MID => 5 | Position.FWD => 2
  | Formation.f532 => fun pos =>
      match pos with
      | Position.GK => 1 | Position.DEF => 5 | Position.MID => 3 | Position.FWD => 2
  | Formation.f4231 => fun pos =>
      match pos with
      | Position.GK => 1 | Position.DEF => 4 | Position.MID => 5 | Position.FWD => 1
  | Formation.f4312 => fun pos =>
      match pos with
      | Position.GK => 1 | Position.DEF => 4 | Position.MID => 4 | Position.FWD => 2
  | Formation.other _ => fun pos =>
      match pos with
      | Position.GK => 1 | Position.DEF => 4 | Position.MID => 4 | Position.FWD => 2

/-- Lineup (formation.go). -/
structure Lineup where
  formation : Formation
  starters : List String
  positions : List Position
  substitutes : List String
  captain : String
deriving DecidableEq

/-- The Team fields read by the verified operations
(domain/team/team.go). -/
structure Team where
  id : String
  name : String
  players : List Player
  formation : Formation
deriving DecidableEq

/-- Team.GetPlayer (team.go): the first roster entry with the given id,
or the not-found error (modelled as none). -/
def Team.GetPlayer (t : Team) (playerID : String) : Option Player :=
  t.players.find? (fun p => p.id = playerID)

/-- Team.GetAvailablePlayers (team.go). -/
def Team.GetAvailablePlayers (t : Team) : List Player :=
  t.players.filter Player.IsAvailable

/-- The domain error values ValidateLineup can return (common/errors.go
plus the two fmt.Errorf sites of team.go); the position-mismatch error
carries the offending player's full name and the assigned position, the
count error carries the required count, the position and the actual
count. -/
inductive LineupError where
  | insufficientPlayers
  | playerNotFound
  | playerUnavailable
  | invalidFormation
  | positionMismatch (name : String) (pos : Position)
  | formationCount (required : Nat) (pos : Position) (got : Nat)
deriving DecidableEq

/-- Go runtime faults that the lineup-validation code can actually hit:
an out-of-range slice index and a method call on a nil player pointer. -/
inductive RuntimeFault where
  | indexOutOfRange
  | nilDereference
deriving DecidableEq

/-- The availability loop of Team.ValidateLineup (team.go): the first
starter that is absent from the roster or unavailable produces the
corresponding error. -/
def checkStartersAvailable (t : Team) : List String → Option LineupError
  | [] => none
  | pid :: rest =>
    match t.GetPlayer pid with
    | none => some LineupError.playerNotFound
    | some p =>
      if p.IsAvailable then checkStartersAvailable t rest
      else some LineupError.playerUnavailable

/-- positionCount[assignedPos]++ on the count table. -/
def bump (counts : Position → Nat) (pos : Position) : Position → Nat :=
  fun q => if q = pos then counts q + 1 else counts q

/-- The requirements check after the loop of validateFormationPositions
(team.go): Go ranges over the four-entry requirements map; which
mismatching entry is reported depends on the unspecified map order, but
whether some entry mismatches does not, so the model probes the four
positions in a fixed order. -/
def countCheck (f : Formation) (counts : Position → Nat) : Option LineupError :=
  match ([Position.GK, Position.DEF, Position.MID, Position.FWD].find?
      (fun pos => counts pos ≠ f.GetPositionRequirements pos)) with
  | some pos => some (LineupError.formationCount (f.GetPositionRequirements pos) pos (counts pos))
  | none => none

/-- The loop of validateFormationPositions (team.go). Go reads
lineup.Positions[i] for the i-th starter; walking the two lists in
lockstep is the same access pattern, and an exhausted positions list is
exactly the index-out-of-range panic. The GetPlayer error is discarded
(p, _ := ...), so an absent starter makes p.CanPlayPosition a nil
dereference; the index panic fires before the nil one because the
index expression is evaluated first. -/
def vfpAux (t : Team) (f : Formation) :
    List String → List Position → (Position → Nat) →
    Except RuntimeFault (Option LineupError)
  | [], _, counts => Except.ok (countCheck f counts)
  | _ :: _, [], _ => Except.error RuntimeFault.indexOutOfRange
  | pid :: rest, apos :: arest, counts =>
    match t.GetPlayer pid with
    | none => Except.error RuntimeFault.nilDereference
    | some p =>
      if p.CanPlayPosition apos then vfpAux t f rest arest (bump counts apos)
      else Except.ok (some (LineupError.positionMismatch p.FullName apos))

/-- validateFormationPositions (team.go). -/
def validateFormationPositions (t : Team) (l : Lineup) :
    Except RuntimeFault (Option LineupError) :=
  vfpAux t l.formation l.starters l.positions (fun _ => 0)

/-- Team.ValidateLineup (team.go): exactly 11 starters, every starter
present and available, formation validity, then the position checks.
A successful validation is ok none (the Go nil error); a Go panic is a
RuntimeFault. -/
def Team.ValidateLineup (t : Team) (l : Lineup) :
    Except RuntimeFault (Option LineupError) :=
  if l.starters.length ≠ 11 then Except.ok (some LineupError.insufficientPlayers)
  else
    match checkStartersAvailable t l.starters with
    | some e => Except.ok (some e)
    | none =>
      if l.formation.IsValid = false then Except.ok (some LineupError.invalidFormation)
      else validateFormationPositions t l

/-- Team.GetBestEleven (team.go): with fewer than 11 available players
return them all; otherwise, for each position of the current
formation's requirements map, take the first required-count available
players eligible for that position, with no used-players tracking and
no sorting. Go ranges over the map in unspecified order; the model
takes the visit order as an argument constrained to be a permutation
of the four positions. -/
def Team.GetBestEleven (t : Team) (order : List Position) : List Player :=
  let available := t.GetAvailablePlayers
  if available.length < 11 then available
  else
    order.foldl (fun bestEleven pos =>
      let candidates := available.filter (fun p => p.CanPlayPosition pos)
      bestEleven ++ candidates.take (t.formation.GetPositionRequirements pos)) []

/-- One simulated call into the development engine, for replaying a
call sequence against a manager. -/
inductive DevCall where
  | training (trainingType : TrainingType) (intensity : ℚ)
  | natural
deriving DecidableEq

/-- Replay one call of a sequence against the manager-owned stream. -/
def devStep (p : Player) (dm : DevelopmentManager) (c : DevCall) :
    Player × DevelopmentManager :=
  match c with
  | DevCall.training tt i =>
    let r := ProcessTraining dm p tt i
    (r.2.1, r.2.2)
  | DevCall.natural => ProcessNaturalDevelopment dm p

/-- The Attribute trajectory of a call sequence: the player's
Attributes value after every call, in order. -/
def runDevSequence (dm : DevelopmentManager) (p : Player) :
    List DevCall → List Attributes
  | [] => []
  | c :: rest =>
    let s := devStep p dm c
    s.1.attributes :: runDevSequence s.2 s.1 rest

/-- An attribute block with every field 70, inside the 0-100 range. -/
def allSeventy : Attributes :=
  { quality := 70, keeping := 70, tackling := 70, passing := 70, shooting := 70,
    heading := 70, speed := 70, stamina := 70, perception := 70, ballControl := 70,
    consistency := 70, importantMatches := 70, potential := 70, ambition := 70,
    professionalism := 70 }

/-- An 80-year-old defender with every bounded field inside its range
and fitness 1. -/
def agedPlayer : Player :=
  { id := "vet80", firstName := "Vet", lastName := "Eran", nickname := "", age := 80,
    position := Position.DEF, status := Status.available, fitness := 1, morale := 75,
    form := 70, attributes := allSeventy }

/-- A 25-year-old midfielder with Stamina 80, the worked example of the
specification. -/
def midExample : Player :=
  { id := "mid25", firstName := "Mid", lastName := "Field", nickname := "", age := 25,
    position := Position.MID, status := Status.available, fitness := 100, morale := 75,
    form := 70, attributes := { allSeventy with stamina := 80 } }

/-- A roster player template: age 25, available, fitness 100, flat 50
visible attributes except the given passing value. -/
def mkAttributes (passingValue : Int) : Attributes :=
  { quality := 65, keeping := 50, tackling := 50, passing := passingValue,
    shooting := 50, heading := 50, speed := 50, stamina := 50, perception := 50,
    ballControl := 50, consistency := 70, importantMatches := 70, potential := 75,
    ambition := 70, professionalism := 70 }

def mkPlayer (pid : String) (pos : Position) (passingValue : Int) : Player :=
  { id := pid, firstName := pid, lastName := "Doe", nickname := "", age := 25,
    position := pos, status := Status.available, fitness := 100, morale := 75, form := 70,
    attributes := mkAttributes passingValue }

/-- Statement of the amended C5 claim, written from its words: for a
player under 23 the single 30 percent draw for +1 Speed and +1 Stamina
(each capped at 100) happens only when the player is under 21 (ages 21
and 22 skip that draw entirely); then a Potential/200 draw picks one
attribute uniformly among Passing, BallControl, Perception, Tackling
for a clamped +1; finally Quality is recomputed as the position overall
rating and stored. -/
def specYoungDevelopment (dm : DevelopmentManager) (p : Player) :
    Player × DevelopmentManager :=
  let afterPhysical : Player × Rng :=
    if p.age < 21 then
      let d := dm.rng.float64
      if d.1 < 0.3 then
        ({ p with
            attributes.speed := min (p.attributes.speed + 1) 100,
            attributes.stamina := min (p.attributes.stamina + 1) 100 }, d.2)
      else (p, d.2)
    else (p, dm.rng)
  let d2 := afterPhysical.2.float64
  let afterPick : Player × Rng :=
    if d2.1 < (afterPhysical.1.attributes.potential : ℚ) / 200 then
      let k := d2.2.intn 4
      (applyAttributeChange afterPhysical.1
        ((["Passing", "BallControl", "Perception", "Tackling"]).getD k.1 "Passing") 1, k.2)
    else (afterPhysical.1, d2.2)
  ({ afterPick.1 with attributes.quality := afterPick.1.GetOverallRating },
    { rng := afterPick.2 })

/-- A 22-year-old with Potential 0 and Speed and Stamina 50, all fields
in range. -/
def age22Fixture : Player :=
  { mkPlayer "n" Position.MID 50 with age := 22, attributes.potential := 0 }

/-- A 20-year-old fixture for the amended-claim witness. -/
def youngFixture : Player := { mkPlayer "y" Position.MID 50 with age := 20 }

/-- Decidable per-index well-formedness and eligibility of one lineup
entry: the indexed starter and assigned position exist, the starter
resolves in the roster, and the player is eligible for that position. -/
def eligEntry (t : Team) (l : Lineup) (j : Nat) : Bool :=
  match l.starters[j]?, l.positions[j]? with
  | some pid, some apos =>
    match t.GetPlayer pid with
    | some p => p.CanPlayPosition apos
    | none => false
  | _, _ => false

/-- The defender assigned to midfield in the lineup fixture, with
Passing 70. -/
def pd5 : Player := mkPlayer "d5" Position.DEF 70

/-- An eleven-player roster: one GK, five DEF, three MID, two FWD, all
available. -/
def lineupTeam : Team :=
  { id := "t1", name := "Lineup FC",
    players := [mkPlayer "gk" Position.GK 50, mkPlayer "d1" Position.DEF 50,
      mkPlayer "d2" Position.DEF 50, mkPlayer "d3" Position.DEF 50,
      mkPlayer "d4" Position.DEF 50, mkPlayer "m1" Position.MID 70,
      mkPlayer "m2" Position.MID 70, mkPlayer "m3" Position.MID 70,
      pd5, mkPlayer "f1" Position.FWD 50, mkPlayer "f2" Position.FWD 50],
    formation := Formation.f442 }

/-- A 4-4-2 lineup over lineupTeam whose ninth starter is the defender
d5 assigned to MID. -/
def lineup442 : Lineup :=
  { formation := Formation.f442,
    starters := ["gk", "d1", "d2", "d3", "d4", "m1", "m2", "m3", "d5", "f1", "f2"],
    positions := [Position.GK, Position.DEF, Position.DEF, Position.DEF, Position.DEF,
      Position.MID, Position.MID, Position.MID, Position.MID, Position.FWD, Position.FWD],
    substitutes := [], captain := "gk" }

/-- The same lineup with an empty Positions array, shorter than its 11
Starters. -/
def shortLineup : Lineup := { lineup442 with positions := [] }

/-- A team of eleven available midfielders in a 4-4-2. -/
def midTeam : Team :=
  { id := "t2", name := "Mid FC",
    players := [mkPlayer "m1" Position.MID 50, mkPlayer "m2" Position.MID 50,
      mkPlayer "m3" Position.MID 50, mkPlayer "m4" Position.MID 50,
      mkPlayer "m5" Position.MID 50, mkPlayer "m6" Position.MID 50,
      mkPlayer "m7" Position.MID 50, mkPlayer "m8" Position.MID 50,
      mkPlayer "m9" Position.MID 50, mkPlayer "m10" Position.MID 50,
      mkPlayer "m11" Position.MID 50],
    formation := Formation.f442 }

/-- C1: the claimed invariant that fitness stays within 0..100 after
any single fitness-engine mutation fails on the code: ApplyDailyRecovery
clamps only from above (math.Min with 100), and for a player over 75
the age factor 0.9 - (age-30)*0.02 of CalculateDailyRecovery is
negative, so a fully in-range 80-year-old with fitness 1 is driven to
fitness -329/400 by a plain intensity-1 recovery tick. -/
theorem c1_fitness_escapes_range :
    (ApplyDailyRecovery NewFitnessManager agedPlayer 1).fitness = -(329/400 : ℚ) ∧
    (ApplyDailyRecovery NewFitnessManager agedPlayer 1).fitness < 0 := by
  constructor <;>
    norm_num [ApplyDailyRecovery, CalculateDailyRecovery, NewFitnessManager,
      agedPlayer, allSeventy, min_def]

/-- C2: CanPlayPosition holds exactly for the player's own position, a
DEF or FWD assigned MID with Passing above 60, or a MID assigned DEF,
MID or FWD; in particular a GK is eligible only for GK, a DEF never for
FWD or GK, a FWD never for DEF or GK, and a MID never for GK. -/
theorem c2_position_eligibility (p : Player) (pos : Position) :
    p.CanPlayPosition pos = true ↔
      (pos = p.position ∨
        (p.position = Position.DEF ∧ pos = Position.MID ∧ 60 < p.attributes.passing) ∨
        (p.position = Position.FWD ∧ pos = Position.MID ∧ 60 < p.attributes.passing) ∨
        (p.position = Position.MID ∧
          (pos = Position.DEF ∨ pos = Position.MID ∨ pos = Position.FWD))) := by
  cases hp : p.position <;> cases pos <;>
    simp [Player.CanPlayPosition, hp]

/-- C6: CalculateMatchFatigue returns 0 for zero minutes and otherwise
the capped product of base fatigue, intensity, stamina modifier, age
penalty and position factor; on the specification's worked example (a
25-year-old MID, Stamina 80, 90 minutes at intensity 1) it returns
exactly 10.8675. -/
theorem c6_match_fatigue :
    (∀ (p : Player) (m : Int) (i : ℚ),
        CalculateMatchFatigue NewFitnessManager p m i =
          if m = 0 then 0
          else min ((m : ℚ) * 0.15 * i * (1.5 - (p.attributes.stamina : ℚ) / 100) *
              (if 30 < p.age then 1 + ((p.age : ℚ) - 30) * 0.05 else 1) *
              (match p.position with
               | Position.GK => 0.6
               | Position.DEF => 0.85
               | Position.MID => 1.15
               | Position.FWD => 1.0)) 60) ∧
      CalculateMatchFatigue NewFitnessManager midExample 90 1 = 10.8675 := by
  constructor
  · intro p m i
    unfold CalculateMatchFatigue
    split
    · rfl
    · cases hpos : p.position <;> simp only [NewFitnessManager, hpos] <;>
        split_ifs <;> (congr 1; ring)
  · norm_num [CalculateMatchFatigue, NewFitnessManager, midExample, allSeventy, min_def]

/-- applyAttributeChange writes only the Attributes block: fitness and
morale pass through unchanged. -/
lemma applyAttributeChange_frame (p : Player) (a : String) (c : Int) :
    (applyAttributeChange p a c).fitness = p.fitness ∧
    (applyAttributeChange p a c).morale = p.morale := by
  unfold applyAttributeChange
  split_ifs <;> exact ⟨rfl, rfl⟩

/-- The shared training loop writes only the Attributes block and the
AttributeChanges map: fitness, morale and the result's morale delta
pass through unchanged. -/
lemma trainAttrsLoop_frame (attrs : List String) :
    ∀ (chance : ℚ) (p : Player) (res : TrainingResult) (r : Rng),
      (trainAttrsLoop attrs chance p res r).1.fitness = p.fitness ∧
      (trainAttrsLoop attrs chance p res r).1.morale = p.morale ∧
      (trainAttrsLoop attrs chance p res r).2.1.moraleChange = res.moraleChange := by
  induction attrs with
  | nil => intro chance p res r; exact ⟨rfl, rfl, rfl⟩
  | cons attr rest ih =>
    intro chance p res r
    simp only [trainAttrsLoop]
    split_ifs with h1 h2
    · obtain ⟨hf, hm, hc⟩ := ih chance (applyAttributeChange p attr _) (setChange res attr _) _
      obtain ⟨haf, ham⟩ := applyAttributeChange_frame p attr
        (calculateImprovement p attr (r.float64.2)).1
      exact ⟨by rw [hf, haf], by rw [hm, ham], by rw [hc]; rfl⟩
    · exact ih chance p res _
    · exact ih chance p res _

/-- The general-training loop likewise leaves fitness, morale and the
result's morale delta unchanged. -/
lemma trainGeneralLoop_frame (n : Nat) :
    ∀ (chance : ℚ) (p : Player) (res : TrainingResult) (r : Rng),
      (trainGeneralLoop n chance p res r).1.fitness = p.fitness ∧
      (trainGeneralLoop n chance p res r).1.morale = p.morale ∧
      (trainGeneralLoop n chance p res r).2.1.moraleChange = res.moraleChange := by
  induction n with
  | zero => intro chance p res r; exact ⟨rfl, rfl, rfl⟩
  | succ n ih =>
    intro chance p res r
    simp only [trainGeneralLoop]
    split_ifs with h1 h2
    · obtain ⟨hf, hm, hc⟩ := ih chance (applyAttributeChange p _ _) (setChange res _ _) _
      obtain ⟨haf, ham⟩ := applyAttributeChange_frame p
        (allTrainAttrs.getD (r.intn allTrainAttrs.length).1 "Keeping")
        (calculateImprovement p _ ((r.intn allTrainAttrs.length).2.float64.2)).1
      exact ⟨by rw [hf, haf], by rw [hm, ham], by rw [hc]; rfl⟩
    · exact ih chance p res _
    · exact ih chance p res _

/-- trainSetPieces likewise leaves fitness, morale and the result's
morale delta unchanged. -/
lemma trainSetPieces_frame (p : Player) (chance : ℚ) (res : TrainingResult) (r : Rng) :
    (trainSetPieces p chance res r).1.fitness = p.fitness ∧
    (trainSetPieces p chance res r).1.morale = p.morale ∧
    (trainSetPieces p chance res r).2.1.moraleChange = res.moraleChange := by
  unfold trainSetPieces
  split_ifs with h1
  · refine ⟨?_, ?_, ?_⟩ <;> (dsimp only; split <;> (try split) <;> rfl)
  · exact trainAttrsLoop_frame _ _ _ _ _

/-- C4 counterexample: ProcessTraining at intensity 0.5 leaves the
player's Fitness field at its initial 100; the claimed in-place decrease
to 100 - 5*0.5 does not happen, because the deltas are only recorded in
the returned TrainingResult. -/
theorem c4_fitness_not_applied :
    (ProcessTraining (NewDevelopmentManager [1, 1, 1]) (mkPlayer "t" Position.MID 50)
        TrainingType.technical 0.5).2.1.fitness = 100 ∧
    (ProcessTraining (NewDevelopmentManager [1, 1, 1]) (mkPlayer "t" Position.MID 50)
        TrainingType.technical 0.5).2.1.fitness ≠
      (mkPlayer "t" Position.MID 50).fitness - 5 * 0.5 := by
  have h : (ProcessTraining (NewDevelopmentManager [1, 1, 1]) (mkPlayer "t" Position.MID 50)
      TrainingType.technical 0.5).2.1.fitness = 100 := by
    simp only [ProcessTraining, trainTechnical]
    rw [(trainAttrsLoop_frame _ _ _ _ _).1]
    rfl
  refine ⟨h, ?_⟩
  rw [h]
  norm_num [mkPlayer]

/-- C4 amended: ProcessTraining records FitnessChange = -5*intensity
and MoraleChange = +2 below intensity 0.7, -3 above 0.9, else 0, in the
returned TrainingResult, and leaves the player's Fitness and Morale
fields unchanged (the deltas are returned to the caller, not applied). -/
theorem c4_training_deltas (dm : DevelopmentManager) (p : Player)
    (tt : TrainingType) (intensity : ℚ) :
    (ProcessTraining dm p tt intensity).1.fitnessChange = -5 * intensity ∧
    (ProcessTraining dm p tt intensity).1.moraleChange =
      (if intensity < 0.7 then 2 else if 0.9 < intensity then -3 else 0) ∧
    (ProcessTraining dm p tt intensity).2.1.fitness = p.fitness ∧
    (ProcessTraining dm p tt intensity).2.1.morale = p.morale := by
  obtain ⟨hf, hm, hc⟩ :
      (match tt with
        | TrainingType.technical => trainTechnical p (calculateImprovementChance p)
            { attributeChanges := [], fitnessChange := 0, moraleChange := 0 } dm.rng
        | TrainingType.physical => trainPhysical p (calculateImprovementChance p)
            { attributeChanges := [], fitnessChange := 0, moraleChange := 0 } dm.rng
        | TrainingType.tactical => trainTactical p (calculateImprovementChance p)
            { attributeChanges := [], fitnessChange := 0, moraleChange := 0 } dm.rng
        | TrainingType.setPieces => trainSetPieces p (calculateImprovementChance p)
            { attributeChanges := [], fitnessChange := 0, moraleChange := 0 } dm.rng
        | TrainingType.general => trainGeneral p (calculateImprovementChance p)
            { attributeChanges := [], fitnessChange := 0, moraleChange := 0 } dm.rng).1.fitness
          = p.fitness ∧
      (match tt with
        | TrainingType.technical => trainTechnical p (calculateImprovementChance p)
            { attributeChanges := [], fitnessChange := 0, moraleChange := 0 } dm.rng
        | TrainingType.physical => trainPhysical p (calculateImprovementChance p)
            { attributeChanges := [], fitnessChange := 0, moraleChange := 0 } dm.rng
        | TrainingType.tactical => trainTactical p (calculateImprovementChance p)
            { attributeChanges := [], fitnessChange := 0, moraleChange := 0 } dm.rng
        | TrainingType.setPieces => trainSetPieces p (calculateImprovementChance p)
            { attributeChanges := [], fitnessChange := 0, moraleChange := 0 } dm.rng
        | TrainingType.general => trainGeneral p (calculateImprovementChance p)
            { attributeChanges := [], fitnessChange := 0, moraleChange := 0 } dm.rng).1.morale
          = p.morale ∧
      (match tt with
        | TrainingType.technical => trainTechnical p (calculateImprovementChance p)
            { attributeChanges := [], fitnessChange := 0, moraleChange := 0 } dm.rng
        | TrainingType.physical => trainPhysical p (calculateImprovementChance p)
            { attributeChanges := [], fitnessChange := 0, moraleChange := 0 } dm.rng
        | TrainingType.tactical => trainTactical p (calculateImprovementChance p)
            { attributeChanges := [], fitnessChange := 0, moraleChange := 0 } dm.rng
        | TrainingType.setPieces => trainSetPieces p (calculateImprovementChance p)
            { attributeChanges := [], fitnessChange := 0, moraleChange := 0 } dm.rng
        | TrainingType.general => trainGeneral p (calculateImprovementChance p)
            { attributeChanges := [], fitnessChange := 0, moraleChange := 0 } dm.rng).2.1.moraleChange
          = 0 := by
    cases tt
    · exact ⟨(trainGeneralLoop_frame _ _ _ _ _).1, (trainGeneralLoop_frame _ _ _ _ _).2.1,
        (trainGeneralLoop_frame _ _ _ _ _).2.2⟩
    · exact ⟨(trainAttrsLoop_frame _ _ _ _ _).1, (trainAttrsLoop_frame _ _ _ _ _).2.1,
        (trainAttrsLoop_frame _ _ _ _ _).2.2⟩
    · exact ⟨(trainAttrsLoop_frame _ _ _ _ _).1, (trainAttrsLoop_frame _ _ _ _ _).2.1,
        (trainAttrsLoop_frame _ _ _ _ _).2.2⟩
    · exact ⟨(trainAttrsLoop_frame _ _ _ _ _).1, (trainAttrsLoop_frame _ _ _ _ _).2.1,
        (trainAttrsLoop_frame _ _ _ _ _).2.2⟩
    · exact ⟨(trainSetPieces_frame _ _ _ _).1, (trainSetPieces_frame _ _ _ _).2.1,
        (trainSetPieces_frame _ _ _ _).2.2⟩
  unfold ProcessTraining
  refine ⟨?_, ?_, ?_, ?_⟩ <;> split_ifs <;> simp_all

/-- C5 counterexample: for this 22-year-old (so under 23) whose first
pre-sampled draw 0 would pass the claimed 30 percent Speed/Stamina
coin, ProcessNaturalDevelopment leaves Speed and Stamina unchanged:
the code gates that coin on age under 21, not under 23. -/
theorem c5_no_boost_at_22 :
    age22Fixture.age < 23 ∧ (0 : ℚ) < 0.3 ∧
    (ProcessNaturalDevelopment (NewDevelopmentManager [0]) age22Fixture).1.attributes.speed =
      age22Fixture.attributes.speed ∧
    (ProcessNaturalDevelopment (NewDevelopmentManager [0]) age22Fixture).1.attributes.stamina =
      age22Fixture.attributes.stamina := by
  refine ⟨by decide, by norm_num, ?_, ?_⟩ <;>
    norm_num [ProcessNaturalDevelopment, youngPlayerDevelopment, age22Fixture, mkPlayer,
      mkAttributes, NewDevelopmentManager, Rng.float64]

/-- C5 amended claim theorem: for every player under 23,
ProcessNaturalDevelopment coincides with the amended-specification
description specYoungDevelopment. -/
theorem c5_young_development (dm : DevelopmentManager) (p : Player) (h : p.age < 23) :
    ProcessNaturalDevelopment dm p = specYoungDevelopment dm p := by
  simp only [ProcessNaturalDevelopment, specYoungDevelopment, youngPlayerDevelopment,
    if_pos h]

/-- C5 witness: the amended claim applied to a concrete 20-year-old. -/
theorem c5_young_development_witness :
    youngFixture.age < 23 ∧
      ProcessNaturalDevelopment (NewDevelopmentManager [0, 0, 1/2]) youngFixture =
        specYoungDevelopment (NewDevelopmentManager [0, 0, 1/2]) youngFixture :=
  ⟨by decide, c5_young_development (NewDevelopmentManager [0, 0, 1/2]) youngFixture (by decide)⟩

/-- C8: two development managers owning the same fixed seed stream (as
any two freshly constructed managers do, both being seeded with 42)
produce bit-identical Attribute trajectories on any identical call
sequence: every stochastic decision draws from the single owned stream
threaded through the model in program order. -/
theorem c8_seed_determinism (seedDraws : List ℚ) (p : Player) (calls : List DevCall)
    (m1 m2 : DevelopmentManager)
    (h1 : m1 = NewDevelopmentManager seedDraws)
    (h2 : m2 = NewDevelopmentManager seedDraws) :
    runDevSequence m1 p calls = runDevSequence m2 p calls := by
  subst h1; subst h2; rfl

/-- C8 witness: a concrete replay of the same two-call sequence from two
freshly constructed managers with the same stream. -/
theorem c8_seed_determinism_witness :
    runDevSequence (NewDevelopmentManager [1/2, 1/4, 1/8, 1/16]) (mkPlayer "w" Position.FWD 60)
        [DevCall.training TrainingType.technical (1/2), DevCall.natural] =
      runDevSequence (NewDevelopmentManager [1/2, 1/4, 1/8, 1/16]) (mkPlayer "w" Position.FWD 60)
        [DevCall.training TrainingType.technical (1/2), DevCall.natural] :=
  c8_seed_determinism [1/2, 1/4, 1/8, 1/16] (mkPlayer "w" Position.FWD 60)
    [DevCall.training TrainingType.technical (1/2), DevCall.natural]
    (NewDevelopmentManager [1/2, 1/4, 1/8, 1/16]) (NewDevelopmentManager [1/2, 1/4, 1/8, 1/16])
    rfl rfl

/-- A true eligEntry unpacks into the existence of the indexed starter,
its assigned position, the resolved player and its eligibility. -/
lemma eligEntry_spec (t : Team) (l : Lineup) (j : Nat) (h : eligEntry t l j = true) :
    ∃ (pid : String) (apos : Position) (p : Player),
      l.starters[j]? = some pid ∧ l.positions[j]? = some apos ∧
      t.GetPlayer pid = some p ∧ p.CanPlayPosition apos = true := by
  unfold eligEntry at h
  split at h
  · rename_i pid apos heq1 heq2
    split at h
    · rename_i p heq3
      exact ⟨pid, apos, p, heq1, heq2, heq3, h⟩
    · simp at h
  · simp at h

/-- When every remaining starter resolves and is eligible, the
position-validation loop reaches the requirements check, with the
counts table advanced by the positions consumed. -/
lemma vfpAux_all_ok (t : Team) (f : Formation) :
    ∀ (starters : List String) (aposs : List Position) (counts : Position → Nat),
      starters.length ≤ aposs.length →
      (∀ (k : Nat) (pid : String) (apos : Position),
        starters[k]? = some pid → aposs[k]? = some apos →
        ∃ (p : Player), t.GetPlayer pid = some p ∧ p.CanPlayPosition apos = true) →
      vfpAux t f starters aposs counts =
        Except.ok (countCheck f
          (fun pos => counts pos + (aposs.take starters.length).count pos)) := by
  intro starters
  induction starters with
  | nil =>
    intro aposs counts _ _
    simp [vfpAux]
  | cons pid rest ih =>
    intro aposs counts hlen helig
    cases aposs with
    | nil => simp at hlen
    | cons apos arest =>
      obtain ⟨p, hp, hcan⟩ := helig 0 pid apos (by simp) (by simp)
      have hlen' : rest.length ≤ arest.length := by simpa using hlen
      have helig' : ∀ (k : Nat) (pid' : String) (apos' : Position),
          rest[k]? = some pid' → arest[k]? = some apos' →
          ∃ (q : Player), t.GetPlayer pid' = some q ∧ q.CanPlayPosition apos' = true := by
        intro k pid' apos' hs ha
        exact helig (k + 1) pid' apos' (by simpa using hs) (by simpa using ha)
      simp only [vfpAux, hp, hcan, if_true]
      rw [ih arest (bump counts apos) hlen' helig']
      refine congrArg Except.ok (congrArg (countCheck f) (funext fun pos => ?_))
      simp only [bump, List.length_cons, List.take_succ_cons, List.count_cons, beq_iff_eq]
      by_cases h : pos = apos
      · simp [h]; omega
      · rw [if_neg h, if_neg (fun hh => h hh.symm)]; omega

/-- When the starters before index i all resolve and are eligible and
the starter at i resolves but is not eligible for its assigned
position, the loop stops at i with the mismatch error naming that
player. -/
lemma vfpAux_first_mismatch (t : Team) (f : Formation) :
    ∀ (i : Nat) (starters : List String) (aposs : List Position) (counts : Position → Nat)
      (pid : String) (apos : Position) (pd : Player),
      (∀ k, k < i → ∃ (pidk : String) (aposk : Position) (pk : Player),
        starters[k]? = some pidk ∧ aposs[k]? = some aposk ∧
        t.GetPlayer pidk = some pk ∧ pk.CanPlayPosition aposk = true) →
      starters[i]? = some pid → aposs[i]? = some apos →
      t.GetPlayer pid = some pd → pd.CanPlayPosition apos = false →
      vfpAux t f starters aposs counts =
        Except.ok (some (LineupError.positionMismatch pd.FullName apos)) := by
  intro i
  induction i with
  | zero =>
    intro starters aposs counts pid apos pd _ hs ha hp hcan
    cases starters with
    | nil => simp at hs
    | cons s0 rest =>
      cases aposs with
      | nil => simp at ha
      | cons a0 arest =>
        simp only [List.getElem?_cons_zero, Option.some.injEq] at hs ha
        subst hs; subst ha
        simp [vfpAux, hp, hcan]
  | succ i ih =>
    intro starters aposs counts pid apos pd hpre hs ha hp hcan
    cases starters with
    | nil => simp at hs
    | cons s0 rest =>
      cases aposs with
      | nil => simp at ha
      | cons a0 arest =>
        obtain ⟨pid0, apos0, p0, h1, h2, h3, h4⟩ := hpre 0 (Nat.succ_pos i)
        simp only [List.getElem?_cons_zero, Option.some.injEq] at h1 h2
        have h3' : t.GetPlayer s0 = some p0 := by rw [h1]; exact h3
        have h4' : p0.CanPlayPosition a0 = true := by rw [h2]; exact h4
        simp only [vfpAux, h3', h4', if_true]
        refine ih rest arest (bump counts a0) pid apos pd ?_ ?_ ?_ hp hcan
        · intro k hk
          obtain ⟨pidk, aposk, pk, hh1, hh2, hh3, hh4⟩ :=
            hpre (k + 1) (Nat.succ_lt_succ hk)
          exact ⟨pidk, aposk, pk, by simpa using hh1, by simpa using hh2, hh3, hh4⟩
        · simpa using hs
        · simpa using ha

/-- C3: for a team and lineup passing the starter-count, availability
and formation-validity stages, with position counts matching the
formation, every other starter eligible for its assigned position, and
starter i a DEF assigned MID, ValidateLineup succeeds exactly when that
defender's Passing exceeds 60, and otherwise fails with the
position-mismatch error naming that player's full name. -/
theorem c3_def_assigned_mid (t : Team) (l : Lineup) (i : Nat) (pid : String) (pd : Player)
    (h11 : l.starters.length = 11)
    (hlen : l.positions.length = l.starters.length)
    (havail : checkStartersAvailable t l.starters = none)
    (hform : l.formation.IsValid = true)
    (hpid : l.starters[i]? = some pid)
    (hpd : t.GetPlayer pid = some pd)
    (hdef : pd.position = Position.DEF)
    (hmid : l.positions[i]? = some Position.MID)
    (hothers : ∀ j, j < l.starters.length → j ≠ i → eligEntry t l j = true)
    (hcounts : ∀ pos, l.positions.count pos = l.formation.GetPositionRequirements pos) :
    (t.ValidateLineup l = Except.ok none ↔ 60 < pd.attributes.passing) ∧
    (pd.attributes.passing ≤ 60 →
      t.ValidateLineup l =
        Except.ok (some (LineupError.positionMismatch pd.FullName Position.MID))) := by
  have hcb : pd.CanPlayPosition Position.MID = decide (60 < pd.attributes.passing) := by
    simp [Player.CanPlayPosition, hdef]
  have hvl : t.ValidateLineup l = validateFormationPositions t l := by
    unfold Team.ValidateLineup
    rw [if_neg (by simp [h11]), havail, if_neg (by simp [hform])]
  have hilt : i < l.starters.length := by
    rcases List.getElem?_eq_some.mp hpid with ⟨hh, _⟩
    exact hh
  by_cases hpass : 60 < pd.attributes.passing
  · have hall : ∀ (k : Nat) (pid' : String) (apos' : Position),
        l.starters[k]? = some pid' → l.positions[k]? = some apos' →
        ∃ (q : Player), t.GetPlayer pid' = some q ∧ q.CanPlayPosition apos' = true := by
      intro k pid' apos' hs ha
      by_cases hk : k = i
      · subst hk
        rw [hpid, Option.some.injEq] at hs
        rw [hmid, Option.some.injEq] at ha
        subst hs; subst ha
        exact ⟨pd, hpd, by rw [hcb]; simpa using hpass⟩
      · have hklt : k < l.starters.length := by
          rcases List.getElem?_eq_some.mp hs with ⟨hh, _⟩
          exact hh
        obtain ⟨pid2, apos2, q, hh1, hh2, hh3, hh4⟩ :=
          eligEntry_spec t l k (hothers k hklt hk)
        rw [hs, Option.some.injEq] at hh1
        rw [ha, Option.some.injEq] at hh2
        subst hh1; subst hh2
        exact ⟨q, hh3, hh4⟩
    have hok := vfpAux_all_ok t l.formation l.starters l.positions (fun _ => 0)
      (le_of_eq hlen.symm) hall
    have htake : l.positions.take l.starters.length = l.positions := by
      rw [← hlen]; simp
    rw [htake] at hok
    simp only [Nat.zero_add] at hok
    have hcc : countCheck l.formation (fun pos => l.positions.count pos) = none := by
      unfold countCheck
      have hfind : List.find?
          (fun pos => decide (l.positions.count pos ≠
            l.formation.GetPositionRequirements pos))
          [Position.GK, Position.DEF, Position.MID, Position.FWD] = none := by
        rw [List.find?_eq_none]
        intro pos _
        simp [hcounts pos]
      rw [hfind]
    have hres : t.ValidateLineup l = Except.ok none := by
      rw [hvl]; unfold validateFormationPositions; rw [hok, hcc]
    refine ⟨by simp [hres, hpass], fun hle => ?_⟩
    exfalso; omega
  · have hcanf : pd.CanPlayPosition Position.MID = false := by
      rw [hcb]; simpa using hpass
    have hpre : ∀ k, k < i → ∃ (pidk : String) (aposk : Position) (pk : Player),
        l.starters[k]? = some pidk ∧ l.positions[k]? = some aposk ∧
        t.GetPlayer pidk = some pk ∧ pk.CanPlayPosition aposk = true := by
      intro k hk
      have hklt : k < l.starters.length := lt_trans hk hilt
      exact eligEntry_spec t l k (hothers k hklt (Nat.ne_of_lt hk))
    have hmm := vfpAux_first_mismatch t l.formation i l.starters l.positions (fun _ => 0)
      pid Position.MID pd hpre hpid hmid hpd hcanf
    have hres : t.ValidateLineup l =
        Except.ok (some (LineupError.positionMismatch pd.FullName Position.MID)) := by
      rw [hvl]; unfold validateFormationPositions; exact hmm
    refine ⟨?_, fun _ => hres⟩
    rw [hres]
    constructor
    · intro hcontr; simp at hcontr
    · intro h60; exact absurd h60 hpass

/-- The template players expose their id unchanged. -/
lemma mkPlayer_id (pid : String) (pos : Position) (pv : Int) :
    (mkPlayer pid pos pv).id = pid := rfl

/-- The template players are available: status available, fitness 100. -/
lemma mkPlayer_isAvailable (pid : String) (pos : Position) (pv : Int) :
    (mkPlayer pid pos pv).IsAvailable = true := by
  norm_num [Player.IsAvailable, mkPlayer]

/-- C3 witness: the claim instantiated on the concrete eleven-player
team with defender d5 (Passing 70) assigned to MID in a 4-4-2. -/
theorem c3_def_assigned_mid_witness :
    (lineupTeam.ValidateLineup lineup442 = Except.ok none ↔ 60 < pd5.attributes.passing) ∧
    (pd5.attributes.passing ≤ 60 →
      lineupTeam.ValidateLineup lineup442 =
        Except.ok (some (LineupError.positionMismatch pd5.FullName Position.MID))) :=
  c3_def_assigned_mid lineupTeam lineup442 8 "d5" pd5 rfl rfl
    (by simp [checkStartersAvailable, Team.GetPlayer, lineupTeam, lineup442,
      mkPlayer_id, mkPlayer_isAvailable, pd5])
    rfl rfl (by simp [Team.GetPlayer, lineupTeam, lineup442, mkPlayer_id, pd5])
    rfl rfl (by decide) (by decide)

/-- C9: on a team of eleven available starters, a valid formation, and
a lineup whose Positions array is empty (shorter than its Starters),
ValidateLineup reaches the per-starter position check and indexes
Positions[0] out of range: in Go this is a runtime panic, not a
returned validation error. -/
theorem c9_positions_index_panic :
    lineupTeam.ValidateLineup shortLineup = Except.error RuntimeFault.indexOutOfRange := by
  simp [Team.ValidateLineup, checkStartersAvailable, Team.GetPlayer,
    validateFormationPositions, vfpAux, Formation.IsValid, lineupTeam, shortLineup,
    lineup442, mkPlayer_id, mkPlayer_isAvailable, pd5]

/-- Counting an element through a fold that appends one block per input
decomposes into the block-wise counts. -/
lemma count_map_foldl_append {α β γ : Type} [BEq γ] (f : α → List β) (g : β → γ) (c : γ) :
    ∀ (l : List α) (acc : List β),
      ((l.foldl (fun a x => a ++ f x) acc).map g).count c
        = ((acc.map g).count c) + (l.map fun x => (((f x).map g).count c)).sum := by
  intro l
  induction l with
  | nil => intro acc; simp
  | cons x xs ih =>
    intro acc
    simp only [List.foldl_cons, List.map_cons, List.sum_cons]
    rw [ih (acc ++ f x)]
    simp [List.map_append, List.count_append]
    omega

/-- The length of such a fold decomposes the same way. -/
lemma length_foldl_append {α β : Type} (f : α → List β) :
    ∀ (l : List α) (acc : List β),
      (l.foldl (fun a x => a ++ f x) acc).length
        = acc.length + (l.map fun x => (f x).length).sum := by
  intro l
  induction l with
  | nil => intro acc; simp
  | cons x xs ih =>
    intro acc
    simp only [List.foldl_cons, List.map_cons, List.sum_cons]
    rw [ih (acc ++ f x)]
    simp
    omega

/-- C10: on a team of eleven available midfielders in a 4-4-2, whatever
order Go's map iteration visits the four positions in, GetBestEleven
returns player m1 three times (once each for the DEF, MID, and FWD
groups, since selected players are not marked used) and only 10 entries
in total, so the result is not a set of 11 distinct players. -/
theorem c10_best_eleven_duplicates (order : List Position)
    (hperm : order.Perm [Position.GK, Position.DEF, Position.MID, Position.FWD]) :
    ((midTeam.GetBestEleven order).map Player.id).count "m1" = 3 ∧
    (midTeam.GetBestEleven order).length = 10 := by
  have hav : midTeam.GetAvailablePlayers = midTeam.players := by
    simp [Team.GetAvailablePlayers, midTeam, mkPlayer_isAvailable]
  unfold Team.GetBestEleven
  rw [hav]
  rw [if_neg (by simp [midTeam])]
  constructor
  · rw [count_map_foldl_append
      (fun pos => (midTeam.players.filter (fun p => p.CanPlayPosition pos)).take
        (midTeam.formation.GetPositionRequirements pos)) Player.id "m1" order []]
    rw [(hperm.map (fun pos =>
      ((((midTeam.players.filter (fun p => p.CanPlayPosition pos)).take
        (midTeam.formation.GetPositionRequirements pos)).map Player.id).count "m1"))).sum_eq]
    decide
  · rw [length_foldl_append
      (fun pos => (midTeam.players.filter (fun p => p.CanPlayPosition pos)).take
        (midTeam.formation.GetPositionRequirements pos)) order []]
    rw [(hperm.map (fun pos =>
      (((midTeam.players.filter (fun p => p.CanPlayPosition pos)).take
        (midTeam.formation.GetPositionRequirements pos)).length))).sum_eq]
    decide

/-- C10 witness: the duplicate occurs already for the natural GK, DEF,
MID, FWD visit order. -/
theorem c10_best_eleven_duplicates_witness :
    ((midTeam.GetBestEleven
        [Position.GK, Position.DEF, Position.MID, Position.FWD]).map Player.id).count "m1" = 3 ∧
    (midTeam.GetBestEleven
        [Position.GK, Position.DEF, Position.MID, Position.FWD]).length = 10 :=
  c10_best_eleven_duplicates [Position.GK, Position.DEF, Position.MID, Position.FWD]
    (by decide)

end FantasyLeague
